import Mathlib

/-!
# SnakeX: the per-frame update of `src/main.cpp`

A shallow embedding of the `Game` class of `src/main.cpp` and the properties of
its update loop.

Modelling conventions.

* `int` members are `Int`.  In a reachable state the coordinates of the snake lie
  in `[-1, 40] x [-1, 30]` and the score in `[0, 119700]` (`Reachable_int_range`),
  so no `int` operation of the program overflows.
* `float` members are exact rationals (`ℚ`): rounding, infinities and NaN are not
  modelled.  The properties below use the timers only through the assignments
  and comparisons of the code.
* What the program obtains from its environment is an explicit input of the
  call: the frame time, the keys `IsKeyPressed` reports, the cells drawn by the
  two `std::uniform_int_distribution`s of `SpawnFood`, and the values derived
  from `GetRandomValue` for every particle.
* A call has no result (`none`) when it evaluates `snake.front()` on an empty
  deque, or when `SpawnFood` has not found a free cell within the draws it was
  given.
* `gridDots` is written by `UpdateGridAnimations` and read by `DrawGrid` only;
  it is not part of the embedding.
-/

namespace SnakeX

/-! ## Constants -/

def SCREEN_WIDTH : Int := 800

def SCREEN_HEIGHT : Int := 600

def GRID_SIZE : Int := 20

def SNAKE_SPEED : ℚ := 15

/-! ## Data model -/

structure SnakeSegment where
  x : Int
  y : Int
deriving DecidableEq, Repr

structure Food where
  x : Int := 0
  y : Int := 0
  pulseTimer : ℚ := 0
deriving DecidableEq

structure Vector2 where
  x : ℚ
  y : ℚ
deriving DecidableEq

/-- The two colours `InitializeDeathAnimation` gives to particles. -/
inductive Color where
  | BLUE
  | SKYBLUE
deriving DecidableEq, Repr

structure Particle where
  position : Vector2
  velocity : Vector2
  rotation : ℚ
  rotationSpeed : ℚ
  size : ℚ
  alpha : ℚ
  color : Color
deriving DecidableEq

/-- Member `DURATION` of `DeathAnimation`; no code assigns it. -/
def DeathAnimation_DURATION : ℚ := 3

structure DeathAnimation where
  particles : List Particle := []
  timer : ℚ := 0
  deathPosition : Vector2 := ⟨0, 0⟩
  started : Bool := false
  finished : Bool := false
deriving DecidableEq

/-- The data members of `Game`, with their default member initialisers. -/
structure Game where
  snake : List SnakeSegment := []
  food : Food := {}
  dx : Int := 1
  dy : Int := 0
  score : Int := 0
  gameOver : Bool := false
  timeSinceLastMove : ℚ := 0
  screenShake : ℚ := 0
  spaceButtonTilt : ℚ := 0
  deathAnim : DeathAnimation := {}
  gameOverTextScale : ℚ := 0
  menuAlpha : ℚ := 0
  isCollectAnimation : Bool := false
  collectAnimTimer : ℚ := 0
deriving DecidableEq

/-! ## Environment -/

/-- One draw of `disX(gen)`, `disY(gen)` in `SpawnFood`: the two distributions
are `uniform_int_distribution<>(0, SCREEN_WIDTH / GRID_SIZE - 1)` and
`uniform_int_distribution<>(0, SCREEN_HEIGHT / GRID_SIZE - 1)`. -/
structure CellDraw where
  x : Int
  y : Int
  hx : 0 ≤ x ∧ x ≤ SCREEN_WIDTH / GRID_SIZE - 1
  hy : 0 ≤ y ∧ y ≤ SCREEN_HEIGHT / GRID_SIZE - 1

/-- The random values of one iteration of the loop of
`InitializeDeathAnimation`: `vx`, `vy` are `cosf(angle) * speed` and
`sinf(angle) * speed`, the others the values assigned to the particle. -/
structure ParticleRandom where
  vx : ℚ
  vy : ℚ
  rotation : ℚ
  rotationSpeed : ℚ
  size : ℚ

/-- What one call of `Update` reads from its environment. -/
structure Input where
  deltaTime : ℚ
  keyUp : Bool := false
  keyDown : Bool := false
  keyLeft : Bool := false
  keyRight : Bool := false
  keySpace : Bool := false
  draws : List CellDraw := []
  particleRandom : Nat → ParticleRandom := fun _ => ⟨0, 0, 0, 0, 0⟩

/-! ## Operations -/

/-- `Game::UpdateGridAnimations`, without the tints of `gridDots`. -/
def UpdateGridAnimations (g : Game) (deltaTime : ℚ) : Game :=
  let g : Game := { g with food := { g.food with pulseTimer := g.food.pulseTimer + deltaTime } }
  let g : Game :=
    if g.isCollectAnimation then
      let g : Game := { g with collectAnimTimer := g.collectAnimTimer + deltaTime }
      if g.collectAnimTimer ≥ 1 / 2 then
        { g with isCollectAnimation := false, collectAnimTimer := 0 }
      else g
    else g
  let g : Game :=
    if g.screenShake > 0 then
      let g : Game := { g with screenShake := g.screenShake * (9 / 10) }
      if g.screenShake < 1 / 10 then { g with screenShake := 0 } else g
    else g
  if g.spaceButtonTilt ≠ 0 then
    let g : Game := { g with spaceButtonTilt := g.spaceButtonTilt * (9 / 10) }
    if |g.spaceButtonTilt| < 1 / 100 then { g with spaceButtonTilt := 0 } else g
  else g

/-- `Game::SpawnFood`: the first draw is assigned to `food`; when a segment of
the snake occupies it the function calls itself, on the remaining draws. -/
def SpawnFood (g : Game) : List CellDraw → Option Game
  | [] => none
  | d :: ds =>
    let g : Game := { g with food := { g.food with x := d.x, y := d.y, pulseTimer := 0 } }
    if g.snake.any (fun seg => seg.x == g.food.x && seg.y == g.food.y) then
      SpawnFood g ds
    else
      some g

/-- `Game::InitializeDeathAnimation`. -/
def InitializeDeathAnimation (g : Game) (gridX gridY : Int)
    (rnd : Nat → ParticleRandom) : Game :=
  let deathPosition : Vector2 :=
    ⟨((gridX * GRID_SIZE + GRID_SIZE / 2 : Int) : ℚ),
     ((gridY * GRID_SIZE + GRID_SIZE / 2 : Int) : ℚ)⟩
  { g with
    deathAnim :=
      { particles := (List.range 50).map fun i =>
          { position := deathPosition
            velocity := ⟨(rnd i).vx, (rnd i).vy⟩
            rotation := (rnd i).rotation
            rotationSpeed := (rnd i).rotationSpeed
            size := (rnd i).size
            alpha := 1
            color := if i % 2 == 0 then Color.BLUE else Color.SKYBLUE }
        timer := 0
        started := true
        finished := false
        deathPosition := deathPosition } }

/-- `Game::UpdateDeathAnimation`. -/
def UpdateDeathAnimation (g : Game) (deltaTime : ℚ) : Game :=
  if !g.deathAnim.started then g
  else
    let timer := g.deathAnim.timer + deltaTime
    let particles := g.deathAnim.particles.map fun p =>
      let vy := p.velocity.y + 980 * deltaTime
      { p with
        velocity := ⟨p.velocity.x, vy⟩
        position := ⟨p.position.x + p.velocity.x * deltaTime, p.position.y + vy * deltaTime⟩
        rotation := p.rotation + p.rotationSpeed * deltaTime
        alpha := max 0 (1 - timer / DeathAnimation_DURATION)
        size := p.size * (99 / 100) }
    { g with
      deathAnim :=
        { g.deathAnim with
          timer := timer
          particles := particles
          finished := if timer ≥ DeathAnimation_DURATION then true else g.deathAnim.finished } }

/-- `Game::CheckCollision`: the result and the state it leaves. -/
def CheckCollision (g : Game) (rnd : Nat → ParticleRandom) : Option (Bool × Game) :=
  match g.snake with
  | [] => none
  | front :: rest =>
    if front.x < 0 ∨ front.x ≥ SCREEN_WIDTH / GRID_SIZE ∨
        front.y < 0 ∨ front.y ≥ SCREEN_HEIGHT / GRID_SIZE then
      some (true, if !g.gameOver then InitializeDeathAnimation g front.x front.y rnd else g)
    else if rest.any (fun seg => front.x == seg.x && front.y == seg.y) then
      some (true, if !g.gameOver then InitializeDeathAnimation g front.x front.y rnd else g)
    else
      some (false, g)

/-- The assignments of `Game::DrawGameOverScreen`, the only ones `Draw` makes. -/
def DrawGameOverScreen (g : Game) : Game :=
  let g : Game :=
    if g.gameOverTextScale < 1 then
      let g : Game := { g with gameOverTextScale := g.gameOverTextScale + 1 / 20 }
      if g.gameOverTextScale > 1 then { g with gameOverTextScale := 1 } else g
    else g
  if g.menuAlpha < 1 then
    let g : Game := { g with menuAlpha := g.menuAlpha + 1 / 50 }
    if g.menuAlpha > 1 then { g with menuAlpha := 1 } else g
  else g

/-- `Game::Draw`, as far as it changes the state. -/
def Draw (g : Game) : Game :=
  if g.gameOver then DrawGameOverScreen g else g

/-- `Game::Reset`. -/
def Reset (g : Game) (draws : List CellDraw) : Option Game :=
  SpawnFood
    { g with
      snake := [⟨7, 5⟩, ⟨6, 5⟩, ⟨5, 5⟩]
      dx := 1
      dy := 0
      score := 0
      gameOver := false
      screenShake := 0
      spaceButtonTilt := 0
      deathAnim :=
        { particles := []
          timer := 0
          started := false
          finished := false
          deathPosition := ⟨0, 0⟩ }
      gameOverTextScale := 0
      menuAlpha := 0 }
    draws

/-- The constructor `Game::Game()`: the default member initialisers, then
`Reset()`. -/
def Game.new (draws : List CellDraw) : Option Game :=
  Reset {} draws

/-- The four key tests of `Game::Update` (lines 371-374), in their order. -/
def Update_keys (g : Game) (inp : Input) : Game :=
  let g := if inp.keyUp && g.dy == 0 then { g with dx := 0, dy := -1 } else g
  let g := if inp.keyDown && g.dy == 0 then { g with dx := 0, dy := 1 } else g
  let g := if inp.keyLeft && g.dx == 0 then { g with dx := -1, dy := 0 } else g
  if inp.keyRight && g.dx == 0 then { g with dx := 1, dy := 0 } else g

/-- The body of `if (timeSinceLastMove >= 1.0f / SNAKE_SPEED)` in
`Game::Update` (lines 378-397): one grid step. -/
def Update_step (g : Game) (inp : Input) : Option Game :=
  match g.snake with
  | [] => none
  | front :: _ =>
    let newHead : SnakeSegment := ⟨front.x + g.dx, front.y + g.dy⟩
    let g := { g with snake := newHead :: g.snake }
    let moved :=
      if newHead.x == g.food.x && newHead.y == g.food.y then
        SpawnFood
          { g with score := g.score + 100, isCollectAnimation := true, collectAnimTimer := 0 }
          inp.draws
      else
        some { g with snake := g.snake.dropLast }
    moved.bind fun g =>
      (CheckCollision g inp.particleRandom).map fun r =>
        let g := if r.1 then { r.2 with gameOver := true } else r.2
        { g with timeSinceLastMove := 0 }

/-- `Game::Update`. -/
def Update (g : Game) (inp : Input) : Option Game :=
  let g := UpdateGridAnimations g inp.deltaTime
  let g := UpdateDeathAnimation g inp.deltaTime
  if g.gameOver then
    if inp.keySpace then Reset g inp.draws else some g
  else
    let g := Update_keys g inp
    let g := { g with timeSinceLastMove := g.timeSinceLastMove + inp.deltaTime }
    if g.timeSinceLastMove ≥ 1 / SNAKE_SPEED then Update_step g inp else some g

/-- The states the program can be in between two calls of its main loop:
`Game game;` followed by any number of `game.Update(..)` and `game.Draw()`. -/
inductive Reachable : Game → Prop
  | init (draws : List CellDraw) (g : Game) : Game.new draws = some g → Reachable g
  | update (g : Game) (inp : Input) (g' : Game) :
      Reachable g → Update g inp = some g' → Reachable g'
  | draw (g : Game) : Reachable g → Reachable (Draw g)

/-! ## Predicates of the statements -/

/-- The cell is inside the grid. -/
def InGrid (x y : Int) : Prop :=
  0 ≤ x ∧ x < SCREEN_WIDTH / GRID_SIZE ∧ 0 ≤ y ∧ y < SCREEN_HEIGHT / GRID_SIZE

instance (x y : Int) : Decidable (InGrid x y) := by
  unfold InGrid; infer_instance

/-- The cell `(x, y)` is occupied by a segment of the snake. -/
def Occupied (snake : List SnakeSegment) (x y : Int) : Prop :=
  (⟨x, y⟩ : SnakeSegment) ∈ snake

instance (snake : List SnakeSegment) (x y : Int) : Decidable (Occupied snake x y) := by
  unfold Occupied; infer_instance

/-- The state `Update` hands to the timer test when the game is running. -/
def Update_timed (g : Game) (inp : Input) : Game :=
  let a := Update_keys (UpdateDeathAnimation (UpdateGridAnimations g inp.deltaTime) inp.deltaTime) inp
  { a with timeSinceLastMove := a.timeSinceLastMove + inp.deltaTime }

/-- The four directions of the snake. -/
def UnitDir (dx dy : Int) : Prop :=
  (dx = 1 ∧ dy = 0) ∨ (dx = -1 ∧ dy = 0) ∨ (dx = 0 ∧ dy = 1) ∨ (dx = 0 ∧ dy = -1)

instance (dx dy : Int) : Decidable (UnitDir dx dy) := by
  unfold UnitDir; infer_instance

/-- The invariant of the reachable states. -/
def Inv (g : Game) : Prop :=
  g.snake ≠ [] ∧
  UnitDir g.dx g.dy ∧
  InGrid g.food.x g.food.y ∧
  ¬ Occupied g.snake g.food.x g.food.y ∧
  (∀ c ∈ g.snake, -1 ≤ c.x ∧ c.x ≤ 40 ∧ -1 ≤ c.y ∧ c.y ≤ 30) ∧
  (g.gameOver = false → g.snake.Nodup ∧ ∀ c ∈ g.snake, InGrid c.x c.y) ∧
  (g.gameOver = true →
    g.deathAnim.started = true ∧ g.deathAnim.particles.length = 50 ∧ g.timeSinceLastMove = 0)

/-- The score counts the segments the snake has grown by. -/
def ScoreInv (g : Game) : Prop :=
  3 ≤ g.snake.length ∧ g.snake.length ≤ 1200 ∧ g.score = 100 * ((g.snake.length : Int) - 3)

/-- The cell `newHead` of `Update` when the head of the snake is `front`: the
direction is the one the key tests of the same call leave. -/
def Update_newHead (g : Game) (inp : Input) (front : SnakeSegment) : SnakeSegment :=
  ⟨front.x + (Update_keys g inp).dx, front.y + (Update_keys g inp).dy⟩

/-- The test `newHead.x == food.x && newHead.y == food.y` of `Update`. -/
def Eats (g : Game) (inp : Input) (front : SnakeSegment) : Prop :=
  (Update_newHead g inp front).x = g.food.x ∧ (Update_newHead g inp front).y = g.food.y

instance (g : Game) (inp : Input) (front : SnakeSegment) : Decidable (Eats g inp front) := by
  unfold Eats; infer_instance

/-- The timer test of `Update` succeeds. -/
def Fires (g : Game) (inp : Input) : Prop :=
  g.timeSinceLastMove + inp.deltaTime ≥ 1 / SNAKE_SPEED

instance (g : Game) (inp : Input) : Decidable (Fires g inp) := by
  unfold Fires; infer_instance

/-! ## States and inputs of the examples -/

/-- A draw of the cell (20, 20). -/
def draw_20_20 : CellDraw := ⟨20, 20, by decide, by decide⟩

/-- A draw of the cell (8, 5), the one in front of the initial head. -/
def draw_8_5 : CellDraw := ⟨8, 5, by decide, by decide⟩

/-- The state `Game()` constructs when `SpawnFood` draws (20, 20). -/
def start_20_20 : Game :=
  { snake := [⟨7, 5⟩, ⟨6, 5⟩, ⟨5, 5⟩], food := { x := 20, y := 20 } }

/-- The state `Game()` constructs when `SpawnFood` draws (8, 5). -/
def start_8_5 : Game :=
  { snake := [⟨7, 5⟩, ⟨6, 5⟩, ⟨5, 5⟩], food := { x := 8, y := 5 } }

/-- An `Update` long enough for a grid step, with no key pressed; a draw of
(20, 20) is available to `SpawnFood`. -/
def input_step : Input := { deltaTime := 1, draws := [draw_20_20] }

/-- A draw of the cell (7, 5), the initial head. -/
def draw_7_5 : CellDraw := ⟨7, 5, by decide, by decide⟩

/-- The state after the initial snake has eaten food at (8, 5) and `SpawnFood` has
drawn (20, 20). -/
def after_eating : Game :=
  { snake := [⟨8, 5⟩, ⟨7, 5⟩, ⟨6, 5⟩, ⟨5, 5⟩], food := { x := 20, y := 20 }, score := 100,
    isCollectAnimation := true }

/-- A running state whose head is at the left wall and which moves left. -/
def at_left_wall : Game :=
  { snake := [⟨0, 5⟩, ⟨1, 5⟩, ⟨2, 5⟩], food := { x := 20, y := 20 }, dx := -1, dy := 0 }

/-- A state in which the game is over: the head has left the grid on the left. -/
def over_left : Game :=
  { snake := [⟨-1, 5⟩, ⟨0, 5⟩, ⟨1, 5⟩], food := { x := 20, y := 20 }, dx := -1, dy := 0,
    score := 300, gameOver := true }

/-- An `Update` in which an arrow key is pressed, and not SPACE. -/
def input_arrow : Input := { deltaTime := 1, keyUp := true, draws := [draw_20_20] }

/-- An `Update` in which SPACE is pressed. -/
def input_space : Input := { deltaTime := 1, keySpace := true, draws := [draw_20_20] }

/-- A draw of the cell (7, 0), five cells above the initial head. -/
def draw_7_0 : CellDraw := ⟨7, 0, by decide, by decide⟩

/-- The state `Game()` constructs when `SpawnFood` draws (7, 0). -/
def start_7_0 : Game :=
  { snake := [⟨7, 5⟩, ⟨6, 5⟩, ⟨5, 5⟩], food := { x := 7, y := 0 } }

/-- A frame in which UP and LEFT are both reported as pressed; too short for a
grid step. -/
def input_up_left : Input := { deltaTime := 1 / 60, keyUp := true, keyLeft := true }

/-- A frame in which UP is pressed; too short for a grid step. -/
def input_up : Input := { deltaTime := 1 / 60, keyUp := true }

/-- A frame in which LEFT is pressed; too short for a grid step. -/
def input_left : Input := { deltaTime := 1 / 60, keyLeft := true }

/-- A frame long enough for a grid step in which UP is pressed. -/
def input_step_up : Input := { deltaTime := 1, keyUp := true, draws := [draw_20_20] }

/-- A frame of a quarter of a second: long enough for a grid step, shorter than
the collect animation. -/
def input_quarter : Input := { deltaTime := 1 / 4 }

/-- A frame of an eighth of a second in which SPACE is pressed. -/
def input_space_eighth : Input :=
  { deltaTime := 1 / 8, keySpace := true, draws := [draw_20_20] }

/-- Runs `Update` on the inputs in turn, from the state `g`. -/
def run (g : Game) : List Input → Option Game
  | [] => some g
  | inp :: inps => (Update g inp).bind fun g' => run g' inps

/-- The state five grid steps after `Game()` (food at (20, 20)) when UP is pressed
in the first of them: the head is at the top row and moves up. -/
def near_top : Game :=
  { snake := [⟨7, 0⟩, ⟨7, 1⟩, ⟨7, 2⟩], food := { x := 20, y := 20, pulseTimer := 5 },
    dx := 0, dy := -1 }

/-! ## Lemmas on the operations and the invariant -/

theorem any_seg_iff (snake : List SnakeSegment) (x y : Int) :
    snake.any (fun seg => seg.x == x && seg.y == y) = true ↔ Occupied snake x y := by
  unfold Occupied
  simp only [List.any_eq_true, Bool.and_eq_true, beq_iff_eq]
  constructor
  · rintro ⟨seg, hmem, hx, hy⟩
    obtain ⟨sx, sy⟩ := seg
    simp only at hx hy
    subst hx; subst hy
    exact hmem
  · intro h
    exact ⟨_, h, rfl, rfl⟩

theorem any_front_iff (rest : List SnakeSegment) (front : SnakeSegment) :
    rest.any (fun seg => front.x == seg.x && front.y == seg.y) = true ↔ front ∈ rest := by
  simp only [List.any_eq_true, Bool.and_eq_true, beq_iff_eq]
  constructor
  · rintro ⟨seg, hmem, hx, hy⟩
    obtain ⟨sx, sy⟩ := seg
    obtain ⟨fx, fy⟩ := front
    simp only at hx hy
    subst hx; subst hy
    exact hmem
  · intro h
    exact ⟨_, h, rfl, rfl⟩

theorem SpawnFood_some (g g' : Game) (draws : List CellDraw)
    (h : SpawnFood g draws = some g') :
    ∃ d ∈ draws, ¬ Occupied g.snake d.x d.y ∧ g' = { g with food := ⟨d.x, d.y, 0⟩ } := by
  induction draws generalizing g with
  | nil => simp [SpawnFood] at h
  | cons d ds ih =>
    unfold SpawnFood at h
    simp only [any_seg_iff] at h
    split_ifs at h with hocc
    · obtain ⟨e, he, hfree, hg⟩ := ih _ h
      exact ⟨e, List.mem_cons_of_mem _ he, hfree, hg⟩
    · refine ⟨d, List.mem_cons_self _ _, hocc, ?_⟩
      simpa using h.symm

theorem SpawnFood_returns (g : Game) (draws : List CellDraw)
    (h : ∃ d ∈ draws, ¬ Occupied g.snake d.x d.y) :
    ∃ g', SpawnFood g draws = some g' := by
  induction draws generalizing g with
  | nil => simp at h
  | cons d ds ih =>
    unfold SpawnFood
    simp only [any_seg_iff]
    split_ifs with hocc
    · obtain ⟨e, he, hfree⟩ := h
      rcases List.mem_cons.mp he with rfl | he
      · exact absurd hocc hfree
      · exact ih _ ⟨e, he, hfree⟩
    · exact ⟨_, rfl⟩

theorem CellDraw_inGrid (d : CellDraw) : InGrid d.x d.y := by
  have hx := d.hx
  have hy := d.hy
  unfold InGrid
  simp only [SCREEN_WIDTH, SCREEN_HEIGHT, GRID_SIZE] at hx hy ⊢
  omega

theorem CheckCollision_cons (g : Game) (rnd : Nat → ParticleRandom)
    (front : SnakeSegment) (rest : List SnakeSegment) (h : g.snake = front :: rest) :
    CheckCollision g rnd =
      if ¬ InGrid front.x front.y ∨ front ∈ rest then
        some (true, if g.gameOver = false then InitializeDeathAnimation g front.x front.y rnd else g)
      else some (false, g) := by
  unfold CheckCollision
  rw [h]
  simp only [any_front_iff]
  by_cases hb : front.x < 0 ∨ front.x ≥ SCREEN_WIDTH / GRID_SIZE ∨
        front.y < 0 ∨ front.y ≥ SCREEN_HEIGHT / GRID_SIZE
  · have : ¬ InGrid front.x front.y := by unfold InGrid; omega
    simp [hb, this]
  · have : InGrid front.x front.y := by unfold InGrid; omega
    simp only [hb, this]
    by_cases hm : front ∈ rest <;> simp [hm]

/-- What `UpdateGridAnimations` leaves alone. -/
theorem UpdateGridAnimations_frame (g : Game) (dt : ℚ) :
    ∃ ic ct ss st, UpdateGridAnimations g dt =
      { g with
        food := { g.food with pulseTimer := g.food.pulseTimer + dt }
        isCollectAnimation := ic
        collectAnimTimer := ct
        screenShake := ss
        spaceButtonTilt := st } := by
  unfold UpdateGridAnimations
  lift_lets
  intro fd g1 g2 g3 g4 g5 g6
  have h3 : ∃ ic ct, g3 = { g1 with isCollectAnimation := ic, collectAnimTimer := ct } := by
    simp only [g3, g2]
    split_ifs <;> exact ⟨_, _, rfl⟩
  obtain ⟨ic, ct, h3⟩ := h3
  have h5 : ∃ ss, g5 = { g3 with screenShake := ss } := by
    simp only [g5, g4]
    split_ifs <;> exact ⟨_, rfl⟩
  obtain ⟨ss, h5⟩ := h5
  have h7 : ∃ st, (if g5.spaceButtonTilt ≠ 0 then
      if |g6.spaceButtonTilt| < 1 / 100 then { g6 with spaceButtonTilt := 0 } else g6
      else g5) = { g5 with spaceButtonTilt := st } := by
    simp only [g6]
    split_ifs <;> exact ⟨_, rfl⟩
  obtain ⟨st, h7⟩ := h7
  refine ⟨ic, ct, ss, st, ?_⟩
  rw [h7, h5, h3]

/-- What `UpdateDeathAnimation` leaves alone. -/
theorem UpdateDeathAnimation_frame (g : Game) (dt : ℚ) :
    UpdateDeathAnimation g dt = { g with deathAnim := (UpdateDeathAnimation g dt).deathAnim } := by
  unfold UpdateDeathAnimation
  split_ifs <;> rfl

theorem UpdateDeathAnimation_started (g : Game) (dt : ℚ) :
    (UpdateDeathAnimation g dt).deathAnim.started = g.deathAnim.started := by
  unfold UpdateDeathAnimation
  split_ifs <;> rfl

theorem UpdateDeathAnimation_deathPosition (g : Game) (dt : ℚ) :
    (UpdateDeathAnimation g dt).deathAnim.deathPosition = g.deathAnim.deathPosition := by
  unfold UpdateDeathAnimation
  split_ifs <;> rfl

theorem UpdateDeathAnimation_length (g : Game) (dt : ℚ) :
    (UpdateDeathAnimation g dt).deathAnim.particles.length = g.deathAnim.particles.length := by
  unfold UpdateDeathAnimation
  split_ifs
  · rfl
  · exact List.length_map _ _

theorem UpdateDeathAnimation_timer (g : Game) (dt : ℚ) :
    (UpdateDeathAnimation g dt).deathAnim.timer =
      if g.deathAnim.started then g.deathAnim.timer + dt else g.deathAnim.timer := by
  unfold UpdateDeathAnimation
  cases g.deathAnim.started <;> rfl

/-- The state a grid step leaves, read off the code of `Update_step`. -/
theorem Update_step_spec (g g' : Game) (inp : Input) (front : SnakeSegment)
    (rest : List SnakeSegment) (hs : g.snake = front :: rest)
    (h : Update_step g inp = some g') :
    ∃ body : List SnakeSegment,
      g'.snake = ⟨front.x + g.dx, front.y + g.dy⟩ :: body ∧
      ((front.x + g.dx = g.food.x ∧ front.y + g.dy = g.food.y) →
        body = g.snake ∧ g'.score = g.score + 100 ∧
        g'.isCollectAnimation = true ∧ g'.collectAnimTimer = 0 ∧
        ∃ d ∈ inp.draws, ¬ Occupied (⟨front.x + g.dx, front.y + g.dy⟩ :: g.snake) d.x d.y ∧
          g'.food = ⟨d.x, d.y, 0⟩) ∧
      (¬ (front.x + g.dx = g.food.x ∧ front.y + g.dy = g.food.y) →
        body = g.snake.dropLast ∧ g'.score = g.score ∧ g'.food = g.food ∧
        g'.isCollectAnimation = g.isCollectAnimation ∧
        g'.collectAnimTimer = g.collectAnimTimer) ∧
      g'.dx = g.dx ∧ g'.dy = g.dy ∧ g'.timeSinceLastMove = 0 ∧
      g'.screenShake = g.screenShake ∧ g'.spaceButtonTilt = g.spaceButtonTilt ∧
      g'.gameOverTextScale = g.gameOverTextScale ∧ g'.menuAlpha = g.menuAlpha ∧
      (g'.gameOver = true ↔ g.gameOver = true ∨
        ¬ InGrid (front.x + g.dx) (front.y + g.dy) ∨
        (⟨front.x + g.dx, front.y + g.dy⟩ : SnakeSegment) ∈ body) ∧
      g'.deathAnim =
        if (¬ InGrid (front.x + g.dx) (front.y + g.dy) ∨
            (⟨front.x + g.dx, front.y + g.dy⟩ : SnakeSegment) ∈ body) ∧ g.gameOver = false then
          (InitializeDeathAnimation g (front.x + g.dx) (front.y + g.dy) inp.particleRandom).deathAnim
        else g.deathAnim := by
  obtain ⟨snake, food, dx, dy, score, gameOver, tslm, ss, sbt, da, gots, ma, ica, cat⟩ := g
  dsimp only at hs ⊢
  subst hs
  unfold Update_step at h
  simp only [beq_iff_eq, Bool.and_eq_true] at h
  by_cases heat : front.x + dx = food.x ∧ front.y + dy = food.y
  · rw [if_pos heat] at h
    obtain ⟨g1, hspawn, hfin⟩ := Option.bind_eq_some.mp h
    obtain ⟨d, hd, hfree, rfl⟩ := SpawnFood_some _ _ _ hspawn
    rw [CheckCollision_cons _ _ _ _ rfl] at hfin
    dsimp only at hfree hfin
    by_cases hit : ¬ InGrid (front.x + dx) (front.y + dy) ∨
        (⟨front.x + dx, front.y + dy⟩ : SnakeSegment) ∈ front :: rest
    · rw [if_pos hit] at hfin
      simp only [Option.map_some', Option.some.injEq, if_true] at hfin
      subst hfin
      cases gameOver
      · refine ⟨_, rfl, fun _ => ⟨rfl, rfl, rfl, rfl, d, hd, hfree, rfl⟩, fun hne => absurd heat hne,
          rfl, rfl, rfl, rfl, rfl, rfl, rfl, ?_, ?_⟩
        · exact ⟨fun _ => Or.inr hit, fun _ => rfl⟩
        · rw [if_pos (And.intro hit rfl)]
          simp only [Bool.not_false, if_true, InitializeDeathAnimation]
      · refine ⟨_, rfl, fun _ => ⟨rfl, rfl, rfl, rfl, d, hd, hfree, rfl⟩, fun hne => absurd heat hne,
          rfl, rfl, rfl, rfl, rfl, rfl, rfl, ?_, ?_⟩
        · exact ⟨fun _ => Or.inl rfl, fun _ => rfl⟩
        · simp
    · rw [if_neg hit] at hfin
      simp only [Option.map_some', Option.some.injEq, Bool.false_eq_true, if_false] at hfin
      subst hfin
      refine ⟨_, rfl, fun _ => ⟨rfl, rfl, rfl, rfl, d, hd, hfree, rfl⟩, fun hne => absurd heat hne,
          rfl, rfl, rfl, rfl, rfl, rfl, rfl, ?_, ?_⟩
      · simp only [hit, or_false]
      · rw [if_neg (fun hh => hit hh.1)]
  · rw [if_neg heat] at h
    simp only [Option.some_bind] at h
    rw [CheckCollision_cons _ _ _ _ rfl] at h
    by_cases hit : ¬ InGrid (front.x + dx) (front.y + dy) ∨
        (⟨front.x + dx, front.y + dy⟩ : SnakeSegment) ∈ (front :: rest).dropLast
    · rw [if_pos hit] at h
      simp only [Option.map_some', Option.some.injEq, if_true] at h
      subst h
      cases gameOver
      · refine ⟨_, rfl, fun he => absurd he heat, fun _ => ⟨rfl, rfl, rfl, rfl, rfl⟩,
          rfl, rfl, rfl, rfl, rfl, rfl, rfl, ?_, ?_⟩
        · exact ⟨fun _ => Or.inr hit, fun _ => rfl⟩
        · rw [if_pos (And.intro hit rfl)]
          simp only [Bool.not_false, if_true, InitializeDeathAnimation]
      · refine ⟨_, rfl, fun he => absurd he heat, fun _ => ⟨rfl, rfl, rfl, rfl, rfl⟩,
          rfl, rfl, rfl, rfl, rfl, rfl, rfl, ?_, ?_⟩
        · exact ⟨fun _ => Or.inl rfl, fun _ => rfl⟩
        · simp
    · rw [if_neg hit] at h
      simp only [Option.map_some', Option.some.injEq, Bool.false_eq_true, if_false] at h
      subst h
      refine ⟨_, rfl, fun he => absurd he heat, fun _ => ⟨rfl, rfl, rfl, rfl, rfl⟩,
          rfl, rfl, rfl, rfl, rfl, rfl, rfl, ?_, ?_⟩
      · simp only [hit, or_false]
      · rw [if_neg (fun hh => hit hh.1)]

theorem Update_step_returns (g : Game) (inp : Input) (front : SnakeSegment)
    (rest : List SnakeSegment) (hs : g.snake = front :: rest)
    (hd : (front.x + g.dx = g.food.x ∧ front.y + g.dy = g.food.y) →
      ∃ d ∈ inp.draws, ¬ Occupied (⟨front.x + g.dx, front.y + g.dy⟩ :: g.snake) d.x d.y) :
    ∃ g', Update_step g inp = some g' := by
  obtain ⟨snake, food, dx, dy, score, gameOver, tslm, ss, sbt, da, gots, ma, ica, cat⟩ := g
  dsimp only at hs hd ⊢
  subst hs
  unfold Update_step
  simp only [beq_iff_eq, Bool.and_eq_true]
  by_cases heat : front.x + dx = food.x ∧ front.y + dy = food.y
  · rw [if_pos heat]
    obtain ⟨g1, hspawn⟩ := SpawnFood_returns
      { snake := ⟨front.x + dx, front.y + dy⟩ :: front :: rest, food := food, dx := dx, dy := dy,
        score := score + 100, gameOver := gameOver, timeSinceLastMove := tslm, screenShake := ss,
        spaceButtonTilt := sbt, deathAnim := da, gameOverTextScale := gots, menuAlpha := ma,
        isCollectAnimation := true, collectAnimTimer := 0 } inp.draws (hd heat)
    rw [hspawn]
    obtain ⟨d, -, -, rfl⟩ := SpawnFood_some _ _ _ hspawn
    simp only [Option.some_bind]
    rw [CheckCollision_cons _ _ _ _ rfl]
    split_ifs <;> exact ⟨_, rfl⟩
  · rw [if_neg heat]
    simp only [Option.some_bind]
    rw [CheckCollision_cons _ _ _ _ rfl]
    split_ifs <;> exact ⟨_, rfl⟩

/-- What the two animation calls at the start of `Update` leave alone. -/
theorem Update_animations (g : Game) (dt : ℚ) :
    ∃ a, a = UpdateDeathAnimation (UpdateGridAnimations g dt) dt ∧
      a.snake = g.snake ∧ a.food.x = g.food.x ∧ a.food.y = g.food.y ∧
      a.food.pulseTimer = g.food.pulseTimer + dt ∧
      a.dx = g.dx ∧ a.dy = g.dy ∧ a.score = g.score ∧ a.gameOver = g.gameOver ∧
      a.timeSinceLastMove = g.timeSinceLastMove ∧
      a.gameOverTextScale = g.gameOverTextScale ∧ a.menuAlpha = g.menuAlpha ∧
      a.deathAnim.started = g.deathAnim.started ∧
      a.deathAnim.deathPosition = g.deathAnim.deathPosition ∧
      a.deathAnim.particles.length = g.deathAnim.particles.length ∧
      a.deathAnim.timer =
        if g.deathAnim.started then g.deathAnim.timer + dt else g.deathAnim.timer := by
  obtain ⟨ic, ct, ss, st, hgrid⟩ := UpdateGridAnimations_frame g dt
  have hda : (UpdateGridAnimations g dt).deathAnim = g.deathAnim := by rw [hgrid]
  refine ⟨_, rfl, ?_, ?_, ?_, ?_, ?_, ?_, ?_, ?_, ?_, ?_, ?_,
    by rw [UpdateDeathAnimation_started, hda],
    by rw [UpdateDeathAnimation_deathPosition, hda],
    by rw [UpdateDeathAnimation_length, hda],
    by rw [UpdateDeathAnimation_timer, hda]⟩
  all_goals (rw [UpdateDeathAnimation_frame, hgrid])

theorem Update_of_gameOver (g : Game) (inp : Input) (h : g.gameOver = true) :
    Update g inp =
      if inp.keySpace then
        Reset (UpdateDeathAnimation (UpdateGridAnimations g inp.deltaTime) inp.deltaTime) inp.draws
      else some (UpdateDeathAnimation (UpdateGridAnimations g inp.deltaTime) inp.deltaTime) := by
  obtain ⟨a, ha, -, -, -, -, -, -, -, hgo, -⟩ := Update_animations g inp.deltaTime
  unfold Update
  simp only [← ha, hgo, h, if_true]

theorem Update_of_running (g : Game) (inp : Input) (h : g.gameOver = false) :
    Update g inp =
      if (Update_timed g inp).timeSinceLastMove ≥ 1 / SNAKE_SPEED then
        Update_step (Update_timed g inp) inp
      else some (Update_timed g inp) := by
  obtain ⟨a, ha, -, -, -, -, -, -, -, hgo, -⟩ := Update_animations g inp.deltaTime
  unfold Update Update_timed
  simp only [← ha, hgo, h, Bool.false_eq_true, if_false]

theorem Update_keys_frame (g : Game) (inp : Input) :
    Update_keys g inp = { g with dx := (Update_keys g inp).dx, dy := (Update_keys g inp).dy } := by
  unfold Update_keys
  lift_lets
  intro g1 g2 g3
  have h1 : ∃ x y, g1 = { g with dx := x, dy := y } := by
    simp only [g1]; split_ifs <;> exact ⟨_, _, rfl⟩
  have h2 : ∃ x y, g2 = { g1 with dx := x, dy := y } := by
    simp only [g2]; split_ifs <;> exact ⟨_, _, rfl⟩
  have h3 : ∃ x y, g3 = { g2 with dx := x, dy := y } := by
    simp only [g3]; split_ifs <;> exact ⟨_, _, rfl⟩
  obtain ⟨x1, y1, h1⟩ := h1
  obtain ⟨x2, y2, h2⟩ := h2
  obtain ⟨x3, y3, h3⟩ := h3
  rw [h3, h2, h1]
  split_ifs <;> rfl

theorem Update_keys_unit (g : Game) (inp : Input) (h : UnitDir g.dx g.dy) :
    UnitDir (Update_keys g inp).dx (Update_keys g inp).dy := by
  obtain ⟨snake, food, dx, dy, score, gameOver, tslm, ss, sbt, da, gots, ma, ica, cat⟩ := g
  obtain ⟨dt, up, down, left, right, space, draws, rnd⟩ := inp
  unfold Update_keys
  dsimp only at h ⊢
  unfold UnitDir at h ⊢
  rcases h with ⟨rfl, rfl⟩ | ⟨rfl, rfl⟩ | ⟨rfl, rfl⟩ | ⟨rfl, rfl⟩ <;>
    cases up <;> cases down <;> cases left <;> cases right <;> simp

theorem Reset_some (g g' : Game) (draws : List CellDraw) (h : Reset g draws = some g') :
    ∃ d ∈ draws, ¬ Occupied [⟨7, 5⟩, ⟨6, 5⟩, ⟨5, 5⟩] d.x d.y ∧
      g' = { g with
        snake := [⟨7, 5⟩, ⟨6, 5⟩, ⟨5, 5⟩]
        food := ⟨d.x, d.y, 0⟩
        dx := 1
        dy := 0
        score := 0
        gameOver := false
        screenShake := 0
        spaceButtonTilt := 0
        deathAnim := { particles := [], timer := 0, started := false, finished := false,
                       deathPosition := ⟨0, 0⟩ }
        gameOverTextScale := 0
        menuAlpha := 0 } := by
  unfold Reset at h
  obtain ⟨d, hd, hfree, hg⟩ := SpawnFood_some _ _ _ h
  exact ⟨d, hd, hfree, hg⟩

theorem Reset_returns (g : Game) (draws : List CellDraw)
    (h : ∃ d ∈ draws, ¬ Occupied [⟨7, 5⟩, ⟨6, 5⟩, ⟨5, 5⟩] d.x d.y) :
    ∃ g', Reset g draws = some g' := by
  unfold Reset
  exact SpawnFood_returns _ _ h

theorem Inv_Reset (g g' : Game) (draws : List CellDraw) (h : Reset g draws = some g') :
    Inv g' := by
  obtain ⟨d, -, hfree, rfl⟩ := Reset_some g g' draws h
  refine ⟨by simp, Or.inl ⟨rfl, rfl⟩, CellDraw_inGrid d, hfree, ?_, fun _ => ⟨?_, ?_⟩, ?_⟩
  · intro c hc
    simp only [List.mem_cons, List.mem_singleton, List.not_mem_nil, or_false] at hc
    rcases hc with rfl | rfl | rfl <;> decide
  · show ([⟨7, 5⟩, ⟨6, 5⟩, ⟨5, 5⟩] : List SnakeSegment).Nodup
    decide
  · intro c hc
    simp only [List.mem_cons, List.mem_singleton, List.not_mem_nil, or_false] at hc
    rcases hc with rfl | rfl | rfl <;> decide
  · intro hgo
    simp at hgo

theorem Draw_frame (g : Game) :
    ∃ s m, Draw g = { g with gameOverTextScale := s, menuAlpha := m } := by
  unfold Draw DrawGameOverScreen
  lift_lets
  intro g1 g2 g3
  have h2 : ∃ s, g2 = { g with gameOverTextScale := s } := by
    simp only [g2, g1]; split_ifs <;> exact ⟨_, rfl⟩
  obtain ⟨s, h2⟩ := h2
  have h3 : ∃ m, (if g2.menuAlpha < 1 then
      if g3.menuAlpha > 1 then { g3 with menuAlpha := 1 } else g3 else g2) =
      { g2 with menuAlpha := m } := by
    simp only [g3]; split_ifs <;> exact ⟨_, rfl⟩
  obtain ⟨m, h3⟩ := h3
  rw [h3, h2]
  split_ifs
  · exact ⟨_, _, rfl⟩
  · exact ⟨_, _, rfl⟩

theorem Inv_Draw (g : Game) (h : Inv g) : Inv (Draw g) := by
  obtain ⟨s, m, hd⟩ := Draw_frame g
  rw [hd]
  exact h

theorem Update_keys_congr (g a : Game) (inp : Input) (hx : a.dx = g.dx) (hy : a.dy = g.dy) :
    (Update_keys a inp).dx = (Update_keys g inp).dx ∧
    (Update_keys a inp).dy = (Update_keys g inp).dy := by
  obtain ⟨snake, food, dx, dy, score, gameOver, tslm, ss, sbt, da, gots, ma, ica, cat⟩ := g
  obtain ⟨snake', food', dx', dy', score', gameOver', tslm', ss', sbt', da', gots', ma', ica', cat'⟩ := a
  dsimp only at hx hy
  subst hx; subst hy
  unfold Update_keys
  dsimp only
  constructor <;> split_ifs <;> rfl

/-- What `Update` leaves alone before its timer test. -/
theorem Update_timed_frame (g : Game) (inp : Input) :
    (Update_timed g inp).snake = g.snake ∧
    (Update_timed g inp).food.x = g.food.x ∧ (Update_timed g inp).food.y = g.food.y ∧
    (Update_timed g inp).food.pulseTimer = g.food.pulseTimer + inp.deltaTime ∧
    (Update_timed g inp).score = g.score ∧
    (Update_timed g inp).gameOver = g.gameOver ∧
    (Update_timed g inp).dx = (Update_keys g inp).dx ∧
    (Update_timed g inp).dy = (Update_keys g inp).dy ∧
    (Update_timed g inp).timeSinceLastMove = g.timeSinceLastMove + inp.deltaTime ∧
    (Update_timed g inp).gameOverTextScale = g.gameOverTextScale ∧
    (Update_timed g inp).menuAlpha = g.menuAlpha ∧
    (Update_timed g inp).deathAnim.started = g.deathAnim.started ∧
    (Update_timed g inp).deathAnim.deathPosition = g.deathAnim.deathPosition ∧
    (Update_timed g inp).deathAnim.particles.length = g.deathAnim.particles.length ∧
    (Update_timed g inp).deathAnim.timer =
      if g.deathAnim.started then g.deathAnim.timer + inp.deltaTime else g.deathAnim.timer := by
  obtain ⟨a, ha, h1, h2, h3, h4, h5, h6, h7, h8, h9, h10, h11, h12, h13, h14, h15⟩ :=
    Update_animations g inp.deltaTime
  obtain ⟨k1, k2⟩ := Update_keys_congr g a inp h5 h6
  unfold Update_timed
  rw [← ha, Update_keys_frame]
  exact ⟨h1, h2, h3, h4, h7, h8, k1, k2, by rw [← h9], h10, h11, h12, h13, h14, h15⟩

theorem InitializeDeathAnimation_length (g : Game) (x y : Int) (rnd : Nat → ParticleRandom) :
    (InitializeDeathAnimation g x y rnd).deathAnim.particles.length = 50 := by
  simp [InitializeDeathAnimation]

theorem InitializeDeathAnimation_position (g : Game) (x y : Int) (rnd : Nat → ParticleRandom) :
    ∀ p ∈ (InitializeDeathAnimation g x y rnd).deathAnim.particles,
      p.position = ⟨((20 * x + 10 : Int) : ℚ), ((20 * y + 10 : Int) : ℚ)⟩ := by
  intro p hp
  simp only [InitializeDeathAnimation, List.mem_map] at hp
  obtain ⟨i, -, rfl⟩ := hp
  simp only [GRID_SIZE, Vector2.mk.injEq]
  constructor <;> norm_num <;> ring

theorem snake_step_bounds (front : SnakeSegment) (dx dy : Int)
    (hf : InGrid front.x front.y) (hd : UnitDir dx dy) :
    -1 ≤ front.x + dx ∧ front.x + dx ≤ 40 ∧ -1 ≤ front.y + dy ∧ front.y + dy ≤ 30 := by
  unfold InGrid at hf
  simp only [SCREEN_WIDTH, SCREEN_HEIGHT, GRID_SIZE] at hf
  rcases hd with ⟨rfl, rfl⟩ | ⟨rfl, rfl⟩ | ⟨rfl, rfl⟩ | ⟨rfl, rfl⟩ <;> omega

theorem InGrid_bounds (x y : Int) (h : InGrid x y) : -1 ≤ x ∧ x ≤ 40 ∧ -1 ≤ y ∧ y ≤ 30 := by
  unfold InGrid at h
  simp only [SCREEN_WIDTH, SCREEN_HEIGHT, GRID_SIZE] at h
  omega

theorem Inv_Update_step (g g' : Game) (inp : Input) (hinv : Inv g) (hgo : g.gameOver = false)
    (h : Update_step g inp = some g') : Inv g' := by
  obtain ⟨hne, hdir, hfin, hfree, -, hrun, -⟩ := hinv
  obtain ⟨hnodup, hgrid⟩ := hrun hgo
  obtain ⟨front, rest, hs⟩ := List.exists_cons_of_ne_nil hne
  obtain ⟨body, hsnake, heat, hnoeat, hdx, hdy, htime, -, -, -, -, hover, hanim⟩ :=
    Update_step_spec g g' inp front rest hs h
  have hfront : InGrid front.x front.y := hgrid front (by rw [hs]; exact List.mem_cons_self _ _)
  have hsub : ∀ c ∈ body, c ∈ g.snake := by
    intro c hc
    by_cases he : front.x + g.dx = g.food.x ∧ front.y + g.dy = g.food.y
    · rw [(heat he).1] at hc; exact hc
    · rw [(hnoeat he).1] at hc; exact List.mem_of_mem_dropLast hc
  have hbodynd : body.Nodup := by
    by_cases he : front.x + g.dx = g.food.x ∧ front.y + g.dy = g.food.y
    · rw [(heat he).1]; exact hnodup
    · rw [(hnoeat he).1]; exact List.Nodup.sublist (List.dropLast_sublist _) hnodup
  refine ⟨by rw [hsnake]; simp, by rw [hdx, hdy]; exact hdir, ?_, ?_, ?_, ?_, ?_⟩
  · by_cases he : front.x + g.dx = g.food.x ∧ front.y + g.dy = g.food.y
    · obtain ⟨-, -, -, -, d, -, -, hfood⟩ := heat he
      rw [hfood]; exact CellDraw_inGrid d
    · rw [(hnoeat he).2.2.1]; exact hfin
  · by_cases he : front.x + g.dx = g.food.x ∧ front.y + g.dy = g.food.y
    · obtain ⟨hb, -, -, -, d, -, hdfree, hfood⟩ := heat he
      rw [hfood, hsnake, hb]; exact hdfree
    · rw [(hnoeat he).2.2.1, hsnake]
      unfold Occupied at hfree ⊢
      intro hmem
      rcases List.mem_cons.mp hmem with heq | hmem
      · apply he
        have hx := congrArg SnakeSegment.x heq
        have hy := congrArg SnakeSegment.y heq
        exact ⟨hx.symm, hy.symm⟩
      · exact hfree (hsub _ hmem)
  · intro c hc
    rw [hsnake] at hc
    rcases List.mem_cons.mp hc with rfl | hc
    · exact snake_step_bounds front g.dx g.dy hfront hdir
    · exact InGrid_bounds _ _ (hgrid c (hsub c hc))
  · intro hg'
    have hnot : ¬ (g.gameOver = true ∨ ¬ InGrid (front.x + g.dx) (front.y + g.dy) ∨
        (⟨front.x + g.dx, front.y + g.dy⟩ : SnakeSegment) ∈ body) := by
      intro hh
      rw [hover.mpr hh] at hg'
      exact Bool.noConfusion hg'
    push_neg at hnot
    obtain ⟨-, hin, hnotin⟩ := hnot
    rw [hsnake]
    refine ⟨List.nodup_cons.mpr ⟨hnotin, hbodynd⟩, ?_⟩
    intro c hc
    rcases List.mem_cons.mp hc with rfl | hc
    · exact hin
    · exact hgrid c (hsub c hc)
  · intro hg'
    have hhit := hover.mp hg'
    rw [hgo] at hhit
    simp only [Bool.false_eq_true, false_or] at hhit
    rw [hanim, if_pos ⟨hhit, hgo⟩]
    exact ⟨rfl, InitializeDeathAnimation_length _ _ _ _, htime⟩

theorem Inv_Update_timed (g : Game) (inp : Input) (hinv : Inv g) (hgo : g.gameOver = false) :
    Inv (Update_timed g inp) ∧ (Update_timed g inp).gameOver = false := by
  obtain ⟨hne, hdir, hfin, hfree, hb, hrun, -⟩ := hinv
  obtain ⟨t1, t2, t3, -, -, t6, t7, t8, -⟩ := Update_timed_frame g inp
  refine ⟨⟨by rw [t1]; exact hne, ?_, by rw [t2, t3]; exact hfin, by rw [t1, t2, t3]; exact hfree,
    by rw [t1]; exact hb, fun _ => by rw [t1]; exact hrun hgo, ?_⟩, by rw [t6]; exact hgo⟩
  · rw [t7, t8]; exact Update_keys_unit g inp hdir
  · intro h; rw [t6, hgo] at h; exact Bool.noConfusion h

theorem Inv_Update (g g' : Game) (inp : Input) (hinv : Inv g) (h : Update g inp = some g') :
    Inv g' := by
  cases hgo : g.gameOver
  · rw [Update_of_running g inp hgo] at h
    obtain ⟨hinvt, hgot⟩ := Inv_Update_timed g inp hinv hgo
    split_ifs at h
    · exact Inv_Update_step _ _ inp hinvt hgot h
    · cases h; exact hinvt
  · rw [Update_of_gameOver g inp hgo] at h
    split_ifs at h
    · exact Inv_Reset _ _ _ h
    · cases h
      obtain ⟨hne, hdir, hfin, hfree, hb, -, hover⟩ := hinv
      obtain ⟨hst, hlen, htime⟩ := hover hgo
      obtain ⟨a, ha, h1, h2, h3, -, h5, h6, -, h8, h9, -, -, h12, -, h14, -⟩ :=
        Update_animations g inp.deltaTime
      rw [← ha]
      refine ⟨by rw [h1]; exact hne, by rw [h5, h6]; exact hdir, by rw [h2, h3]; exact hfin,
        by rw [h1, h2, h3]; exact hfree, by rw [h1]; exact hb, ?_, ?_⟩
      · intro hh; rw [h8, hgo] at hh; exact Bool.noConfusion hh
      · intro _; exact ⟨by rw [h12]; exact hst, by rw [h14]; exact hlen, by rw [h9]; exact htime⟩

/-- Every reachable state satisfies the invariant. -/
theorem Reachable_Inv (g : Game) (h : Reachable g) : Inv g := by
  induction h with
  | init draws g hg => exact Inv_Reset _ _ _ hg
  | update g inp g' _ hstep ih => exact Inv_Update g g' inp ih hstep
  | draw g _ ih => exact Inv_Draw g ih

theorem Update_fires (g : Game) (inp : Input) (hgo : g.gameOver = false) (hfire : Fires g inp) :
    Update g inp = Update_step (Update_timed g inp) inp := by
  rw [Update_of_running g inp hgo]
  obtain ⟨-, -, -, -, -, -, -, -, t9, -⟩ := Update_timed_frame g inp
  rw [if_pos (by rw [t9]; exact hfire)]

theorem Update_not_fires (g : Game) (inp : Input) (hgo : g.gameOver = false)
    (hfire : ¬ Fires g inp) : Update g inp = some (Update_timed g inp) := by
  rw [Update_of_running g inp hgo]
  obtain ⟨-, -, -, -, -, -, -, -, t9, -⟩ := Update_timed_frame g inp
  rw [if_neg (by rw [t9]; exact hfire)]

/-- The state after an `Update` that takes a grid step, in terms of the state
before the call. -/
theorem Update_grid_step (g g' : Game) (inp : Input) (front : SnakeSegment)
    (rest : List SnakeSegment) (hs : g.snake = front :: rest) (hgo : g.gameOver = false)
    (hfire : Fires g inp) (h : Update g inp = some g') :
    ∃ body : List SnakeSegment,
      g'.snake = Update_newHead g inp front :: body ∧
      (Eats g inp front →
        body = g.snake ∧ g'.score = g.score + 100 ∧
        g'.isCollectAnimation = true ∧ g'.collectAnimTimer = 0 ∧
        ∃ d ∈ inp.draws, ¬ Occupied (Update_newHead g inp front :: g.snake) d.x d.y ∧
          g'.food = ⟨d.x, d.y, 0⟩) ∧
      (¬ Eats g inp front →
        body = g.snake.dropLast ∧ g'.score = g.score ∧
        g'.food.x = g.food.x ∧ g'.food.y = g.food.y) ∧
      g'.dx = (Update_keys g inp).dx ∧ g'.dy = (Update_keys g inp).dy ∧
      g'.timeSinceLastMove = 0 ∧
      (g'.gameOver = true ↔
        ¬ InGrid (Update_newHead g inp front).x (Update_newHead g inp front).y ∨
        Update_newHead g inp front ∈ body) ∧
      (g'.gameOver = true →
        g'.deathAnim =
          (InitializeDeathAnimation g (Update_newHead g inp front).x
            (Update_newHead g inp front).y inp.particleRandom).deathAnim) := by
  rw [Update_fires g inp hgo hfire] at h
  obtain ⟨t1, t2, t3, -, t5, t6, t7, t8, -⟩ := Update_timed_frame g inp
  obtain ⟨body, hsnake, heat, hnoeat, hdx, hdy, htime, -, -, -, -, hover, hanim⟩ :=
    Update_step_spec (Update_timed g inp) g' inp front rest (by rw [t1]; exact hs) h
  simp only [t1, t2, t3, t5, t6, t7, t8, hgo, Bool.false_eq_true, false_or, and_true]
    at hsnake heat hnoeat hdx hdy hover hanim
  refine ⟨body, hsnake, ?_, ?_, hdx, hdy, htime, hover, ?_⟩
  · intro he
    exact heat he
  · intro he
    obtain ⟨hb, hsc, hfood, -⟩ := hnoeat he
    exact ⟨hb, hsc, by rw [hfood, t2], by rw [hfood, t3]⟩
  · intro hg'
    rw [hanim, if_pos (hover.mp hg')]
    rfl

theorem Update_grid_step_returns (g : Game) (inp : Input) (front : SnakeSegment)
    (rest : List SnakeSegment) (hs : g.snake = front :: rest) (hgo : g.gameOver = false)
    (hfire : Fires g inp)
    (hdraw : Eats g inp front →
      ∃ d ∈ inp.draws, ¬ Occupied (Update_newHead g inp front :: g.snake) d.x d.y) :
    ∃ g', Update g inp = some g' := by
  rw [Update_fires g inp hgo hfire]
  obtain ⟨t1, t2, t3, -, -, -, t7, t8, -⟩ := Update_timed_frame g inp
  apply Update_step_returns (Update_timed g inp) inp front rest (by rw [t1]; exact hs)
  rw [t1, t2, t3, t7, t8]
  exact hdraw

/-- With at most one arrow key reported, the key tests never reverse the
direction. -/
theorem Update_keys_single (g : Game) (inp : Input) (hd : UnitDir g.dx g.dy)
    (hone : (inp.keyUp.toNat + inp.keyDown.toNat + inp.keyLeft.toNat + inp.keyRight.toNat ≤ 1)) :
    ¬ ((Update_keys g inp).dx = -g.dx ∧ (Update_keys g inp).dy = -g.dy) := by
  obtain ⟨snake, food, dx, dy, score, gameOver, tslm, ss, sbt, da, gots, ma, ica, cat⟩ := g
  obtain ⟨dt, up, down, left, right, space, draws, rnd⟩ := inp
  unfold Update_keys
  dsimp only at hd hone ⊢
  unfold UnitDir at hd
  rcases hd with ⟨rfl, rfl⟩ | ⟨rfl, rfl⟩ | ⟨rfl, rfl⟩ | ⟨rfl, rfl⟩ <;>
    cases up <;> cases down <;> cases left <;> cases right <;> simp at hone ⊢

theorem Eats_newHead (g : Game) (inp : Input) (front : SnakeSegment) (he : Eats g inp front) :
    Update_newHead g inp front = ⟨g.food.x, g.food.y⟩ := by
  obtain ⟨hx, hy⟩ := he
  rw [← hx, ← hy]

/-- In a state where the food is in the grid and off the snake, an eating step
does not collide. -/
theorem Eats_no_hit (g : Game) (inp : Input) (front : SnakeSegment)
    (hin : InGrid g.food.x g.food.y) (hfree : ¬ Occupied g.snake g.food.x g.food.y)
    (he : Eats g inp front) :
    InGrid (Update_newHead g inp front).x (Update_newHead g inp front).y ∧
    Update_newHead g inp front ∉ g.snake := by
  rw [Eats_newHead g inp front he]
  exact ⟨hin, hfree⟩

theorem Reachable_run (g g' : Game) (inps : List Input) (hr : Reachable g)
    (h : run g inps = some g') : Reachable g' := by
  induction inps generalizing g with
  | nil =>
    simp only [run, Option.some.injEq] at h
    rw [← h]; exact hr
  | cons inp inps ih =>
    simp only [run] at h
    obtain ⟨g1, h1, h2⟩ := Option.bind_eq_some.mp h
    exact ih g1 (Reachable.update g inp g1 hr h1) h2

/-- A duplicate-free list of cells of the 40 x 30 grid has at most 1200 elements. -/
theorem length_le_of_nodup_inGrid (l : List SnakeSegment) (hnd : l.Nodup)
    (hin : ∀ c ∈ l, InGrid c.x c.y) : l.length ≤ 1200 := by
  have hinj : Function.Injective (fun c : SnakeSegment => (c.x, c.y)) := by
    rintro ⟨x1, y1⟩ ⟨x2, y2⟩ h
    simp only [Prod.mk.injEq] at h
    rw [h.1, h.2]
  have hnd2 : (l.map (fun c : SnakeSegment => (c.x, c.y))).Nodup := hnd.map hinj
  have hsub : (l.map (fun c : SnakeSegment => (c.x, c.y))).toFinset ⊆
      Finset.Icc (0 : Int) 39 ×ˢ Finset.Icc (0 : Int) 29 := by
    intro p hp
    simp only [List.mem_toFinset, List.mem_map] at hp
    obtain ⟨c, hc, rfl⟩ := hp
    have h := hin c hc
    unfold InGrid at h
    simp only [SCREEN_WIDTH, SCREEN_HEIGHT, GRID_SIZE] at h
    simp only [Finset.mem_product, Finset.mem_Icc]
    omega
  have hcard := Finset.card_le_card hsub
  rw [List.toFinset_card_of_nodup hnd2, List.length_map, Finset.card_product,
    Int.card_Icc, Int.card_Icc] at hcard
  simpa using hcard

theorem ScoreInv_Update (g g' : Game) (inp : Input) (hinv : Inv g) (hsc : ScoreInv g)
    (h : Update g inp = some g') : ScoreInv g' := by
  have hinv' : Inv g' := Inv_Update g g' inp hinv h
  obtain ⟨hne, -, hin, hfree, -⟩ := hinv
  obtain ⟨hlo, hhi, hscore⟩ := hsc
  cases hgo : g.gameOver
  · by_cases hfire : Fires g inp
    · obtain ⟨front, rest, hs⟩ := List.exists_cons_of_ne_nil hne
      obtain ⟨body, hsnake, heat, hnoeat, -, -, -, hover, -⟩ :=
        Update_grid_step g g' inp front rest hs hgo hfire h
      by_cases he : Eats g inp front
      · obtain ⟨hb, hsc', -⟩ := heat he
        obtain ⟨hgrid, hnot⟩ := Eats_no_hit g inp front hin hfree he
        have hrun : g'.gameOver = false := by
          cases hg : g'.gameOver
          · rfl
          · rw [hb] at hover
            rcases hover.mp hg with hout | hmem
            · exact absurd hgrid hout
            · exact absurd hmem hnot
        obtain ⟨-, -, -, -, -, hrun', -⟩ := hinv'
        obtain ⟨hnd, hall⟩ := hrun' hrun
        have hlen := length_le_of_nodup_inGrid g'.snake hnd hall
        have hl : g'.snake.length = g.snake.length + 1 := by
          rw [hsnake, hb, List.length_cons]
        refine ⟨by omega, hlen, ?_⟩
        rw [hsc', hscore, hl]
        push_cast
        ring
      · obtain ⟨hb, hsc', -⟩ := hnoeat he
        have hl : g'.snake.length = g.snake.length := by
          rw [hsnake, hb, List.length_cons, List.length_dropLast]
          omega
        exact ⟨by omega, by omega, by rw [hsc', hscore, hl]⟩
    · rw [Update_not_fires g inp hgo hfire] at h
      cases h
      obtain ⟨t1, -, -, -, t5, -⟩ := Update_timed_frame g inp
      rw [ScoreInv, t1, t5]
      exact ⟨hlo, hhi, hscore⟩
  · rw [Update_of_gameOver g inp hgo] at h
    split_ifs at h
    · obtain ⟨d, -, -, rfl⟩ := Reset_some _ _ _ h
      exact ⟨by simp, by simp, by simp⟩
    · cases h
      obtain ⟨a, ha, h1, -, -, -, -, -, h7, -⟩ := Update_animations g inp.deltaTime
      rw [← ha, ScoreInv, h1, h7]
      exact ⟨hlo, hhi, hscore⟩

/-- No `int` of a reachable state is near the limits of the type: the coordinates
of the snake lie in [-1, 40] x [-1, 30], the direction is one of the four unit
vectors, and the score lies in [0, 119700]. -/
theorem Reachable_int_range (g : Game) (hr : Reachable g) :
    (∀ c ∈ g.snake, -1 ≤ c.x ∧ c.x ≤ 40 ∧ -1 ≤ c.y ∧ c.y ≤ 30) ∧
    UnitDir g.dx g.dy ∧ InGrid g.food.x g.food.y ∧
    0 ≤ g.score ∧ g.score ≤ 119700 := by
  have hsc : ScoreInv g := by
    induction hr with
    | init draws g hg =>
      obtain ⟨d, -, -, rfl⟩ := Reset_some _ _ _ hg
      exact ⟨by simp, by simp, by simp⟩
    | update g inp g' hr hstep ih => exact ScoreInv_Update g g' inp (Reachable_Inv g hr) ih hstep
    | draw g hr ih =>
      obtain ⟨s, m, hd⟩ := Draw_frame g
      rw [hd]; exact ih
  obtain ⟨-, hdir, hin, -, hb, -⟩ := Reachable_Inv g hr
  obtain ⟨hlo, hhi, hscore⟩ := hsc
  refine ⟨hb, hdir, hin, ?_, ?_⟩ <;> omega

/-! ## The claims -/

/-- C1: in every state reachable from `Game()` by calls of `Update` (and of
`Draw`), with any frame times, keys and random cells, if `gameOver` is false the
cells of the snake are pairwise distinct, and the head equals no other segment. -/
theorem C1_collision_invariant (g : Game) (hr : Reachable g) (hgo : g.gameOver = false) :
    g.snake.Nodup ∧ ∀ head rest, g.snake = head :: rest → head ∉ rest := by
  obtain ⟨-, -, -, -, -, hrun, -⟩ := Reachable_Inv g hr
  obtain ⟨hnd, -⟩ := hrun hgo
  refine ⟨hnd, ?_⟩
  intro head rest hs
  rw [hs] at hnd
  exact (List.nodup_cons.mp hnd).1

theorem C1_collision_invariant_witness :
    Reachable start_20_20 ∧ start_20_20.gameOver = false ∧
    (start_20_20.snake.Nodup ∧ ∀ head rest, start_20_20.snake = head :: rest → head ∉ rest) :=
  ⟨Reachable.init [draw_20_20] start_20_20 rfl, rfl,
    C1_collision_invariant start_20_20 (Reachable.init [draw_20_20] start_20_20 rfl) rfl⟩

/-- C2: an `Update` of a running game whose movement timer fires pushes
`(head.x + dx, head.y + dy)` in front of the snake and removes the old tail exactly
when that cell is not the food cell: a step that does not eat returns, with score
and length unchanged; a step that eats returns as soon as `SpawnFood` does, with
the score increased by 100 and the length by 1. -/
theorem C2_grid_step (g : Game) (inp : Input) (front : SnakeSegment)
    (rest : List SnakeSegment) (hs : g.snake = front :: rest) (hgo : g.gameOver = false)
    (hfire : Fires g inp) :
    (¬ Eats g inp front →
      ∃ g', Update g inp = some g' ∧
        g'.snake = Update_newHead g inp front :: g.snake.dropLast ∧
        g'.score = g.score ∧ g'.snake.length = g.snake.length) ∧
    (Eats g inp front →
      (∃ d ∈ inp.draws, ¬ Occupied (Update_newHead g inp front :: g.snake) d.x d.y) →
      ∃ g', Update g inp = some g' ∧
        g'.snake = Update_newHead g inp front :: g.snake ∧
        g'.score = g.score + 100 ∧ g'.snake.length = g.snake.length + 1) ∧
    (Eats g inp front → ∀ g', Update g inp = some g' →
        g'.snake = Update_newHead g inp front :: g.snake ∧
        g'.score = g.score + 100 ∧ g'.snake.length = g.snake.length + 1) := by
  have eating : Eats g inp front → ∀ g', Update g inp = some g' →
      g'.snake = Update_newHead g inp front :: g.snake ∧
      g'.score = g.score + 100 ∧ g'.snake.length = g.snake.length + 1 := by
    intro he g' h
    obtain ⟨body, hsnake, heat, -⟩ := Update_grid_step g g' inp front rest hs hgo hfire h
    obtain ⟨hb, hsc, -⟩ := heat he
    rw [hb] at hsnake
    exact ⟨hsnake, hsc, by rw [hsnake, List.length_cons]⟩
  refine ⟨?_, ?_, eating⟩
  · intro he
    obtain ⟨g', h⟩ := Update_grid_step_returns g inp front rest hs hgo hfire
      (fun hh => absurd hh he)
    obtain ⟨body, hsnake, -, hnoeat, -⟩ := Update_grid_step g g' inp front rest hs hgo hfire h
    obtain ⟨hb, hsc, -⟩ := hnoeat he
    rw [hb] at hsnake
    refine ⟨g', h, hsnake, hsc, ?_⟩
    rw [hsnake, List.length_cons, List.length_dropLast, hs, List.length_cons]
    omega
  · intro he hd
    obtain ⟨g', h⟩ := Update_grid_step_returns g inp front rest hs hgo hfire (fun _ => hd)
    exact ⟨g', h, eating he g' h⟩

theorem C2_grid_step_witness :
    (∃ g', Update start_20_20 input_step = some g' ∧
      g'.snake = [⟨8, 5⟩, ⟨7, 5⟩, ⟨6, 5⟩] ∧ g'.score = 0 ∧ g'.snake.length = 3) ∧
    (∃ g', Update start_8_5 input_step = some g' ∧
      g'.snake = [⟨8, 5⟩, ⟨7, 5⟩, ⟨6, 5⟩, ⟨5, 5⟩] ∧ g'.score = 100 ∧ g'.snake.length = 4) :=
  ⟨(C2_grid_step start_20_20 input_step ⟨7, 5⟩ [⟨6, 5⟩, ⟨5, 5⟩] rfl rfl (by decide!)).1
      (by decide),
   (C2_grid_step start_8_5 input_step ⟨7, 5⟩ [⟨6, 5⟩, ⟨5, 5⟩] rfl rfl (by decide!)).2.1
      (by decide) ⟨draw_20_20, by simp [input_step], by decide⟩⟩

/-- C3: whenever `SpawnFood` returns, the food cell is inside the grid and on no
segment of the current snake (which the call leaves unchanged), and it returns as
soon as one of its draws is a free cell.  In an eating step the snake handed to
`SpawnFood` already holds the new head, so the new food cell is not on the grown
snake and differs from the cell just eaten. -/
theorem C3_food_placement (g g' : Game) (draws : List CellDraw)
    (h : SpawnFood g draws = some g') :
    InGrid g'.food.x g'.food.y ∧ ¬ Occupied g'.snake g'.food.x g'.food.y ∧
    g'.snake = g.snake ∧ g'.food.pulseTimer = 0 ∧
    (∀ (p : Game) (ds : List CellDraw),
      (∃ d ∈ ds, ¬ Occupied p.snake d.x d.y) → ∃ p', SpawnFood p ds = some p') ∧
    (∀ (p p' : Game) (inp : Input) (front : SnakeSegment) (rest : List SnakeSegment),
      p.snake = front :: rest → p.gameOver = false → Fires p inp → Eats p inp front →
      Update p inp = some p' →
        Update_newHead p inp front ∈ p'.snake ∧
        InGrid p'.food.x p'.food.y ∧
        ¬ Occupied p'.snake p'.food.x p'.food.y ∧
        ¬ (p'.food.x = p.food.x ∧ p'.food.y = p.food.y)) := by
  obtain ⟨d, -, hfree, rfl⟩ := SpawnFood_some g g' draws h
  refine ⟨CellDraw_inGrid d, hfree, rfl, rfl, fun p ds hd => SpawnFood_returns p ds hd, ?_⟩
  intro p p' inp front rest hs hgo hfire he hup
  obtain ⟨body, hsnake, heat, -⟩ := Update_grid_step p p' inp front rest hs hgo hfire hup
  obtain ⟨hb, -, -, -, e, -, hefree, hfood⟩ := heat he
  rw [hb] at hsnake
  have hocc : ¬ Occupied p'.snake p'.food.x p'.food.y := by
    rw [hsnake, hfood]; exact hefree
  refine ⟨by rw [hsnake]; exact List.mem_cons_self _ _, by rw [hfood]; exact CellDraw_inGrid e,
    hocc, ?_⟩
  rintro ⟨hx, hy⟩
  apply hocc
  unfold Occupied
  rw [hx, hy, hsnake, ← he.1, ← he.2]
  exact List.mem_cons_self _ _

theorem C3_food_placement_witness :
    SpawnFood start_8_5 [draw_7_5, draw_20_20] = some start_20_20 ∧
    InGrid 20 20 ∧ ¬ Occupied [⟨7, 5⟩, ⟨6, 5⟩, ⟨5, 5⟩] 20 20 ∧
    Update start_8_5 input_step = some after_eating ∧
    (⟨8, 5⟩ : SnakeSegment) ∈ after_eating.snake ∧
    InGrid after_eating.food.x after_eating.food.y ∧
    ¬ Occupied after_eating.snake after_eating.food.x after_eating.food.y ∧
    ¬ (after_eating.food.x = 8 ∧ after_eating.food.y = 5) :=
  ⟨by decide!,
   (C3_food_placement start_8_5 start_20_20 [draw_7_5, draw_20_20] (by decide!)).1,
   (C3_food_placement start_8_5 start_20_20 [draw_7_5, draw_20_20] (by decide!)).2.1,
   by decide!,
   (C3_food_placement start_8_5 start_20_20 [draw_7_5, draw_20_20] (by decide!)).2.2.2.2.2
      start_8_5 after_eating input_step ⟨7, 5⟩ [⟨6, 5⟩, ⟨5, 5⟩] rfl rfl (by decide!) (by decide)
      (by decide!)⟩

/-- C4: a grid step from a running state returns (in an eating step as soon as
`SpawnFood` does), and after it `gameOver` is true if and only if the new head is
outside the grid or equals another segment of the snake as it stands after the
push of the new head and the conditional removal of the tail. -/
theorem C4_game_over_transition (g : Game) (inp : Input) (front : SnakeSegment)
    (rest : List SnakeSegment) (hs : g.snake = front :: rest) (hgo : g.gameOver = false)
    (hfire : Fires g inp)
    (hdraw : Eats g inp front →
      ∃ d ∈ inp.draws, ¬ Occupied (Update_newHead g inp front :: g.snake) d.x d.y) :
    ∃ g', Update g inp = some g' ∧
      g'.snake.head? = some (Update_newHead g inp front) ∧
      g'.snake.tail = (if Eats g inp front then g.snake else g.snake.dropLast) ∧
      (g'.gameOver = true ↔
        ((Update_newHead g inp front).x < 0 ∨ (Update_newHead g inp front).x ≥ 40 ∨
          (Update_newHead g inp front).y < 0 ∨ (Update_newHead g inp front).y ≥ 30) ∨
        Update_newHead g inp front ∈ g'.snake.tail) := by
  obtain ⟨g', h⟩ := Update_grid_step_returns g inp front rest hs hgo hfire hdraw
  obtain ⟨body, hsnake, heat, hnoeat, -, -, -, hover, -⟩ :=
    Update_grid_step g g' inp front rest hs hgo hfire h
  refine ⟨g', h, by rw [hsnake]; rfl, ?_, ?_⟩
  · rw [hsnake, List.tail_cons]
    by_cases he : Eats g inp front
    · rw [if_pos he]; exact (heat he).1
    · rw [if_neg he]; exact (hnoeat he).1
  · rw [hover, hsnake, List.tail_cons]
    have hgrid : ¬ InGrid (Update_newHead g inp front).x (Update_newHead g inp front).y ↔
        ((Update_newHead g inp front).x < 0 ∨ (Update_newHead g inp front).x ≥ 40 ∨
          (Update_newHead g inp front).y < 0 ∨ (Update_newHead g inp front).y ≥ 30) := by
      unfold InGrid
      simp only [SCREEN_WIDTH, SCREEN_HEIGHT, GRID_SIZE]
      omega
    rw [hgrid]

theorem C4_game_over_transition_witness :
    ∃ g', Update at_left_wall input_step = some g' ∧
      g'.snake.head? = some ⟨-1, 5⟩ ∧ g'.snake.tail = [⟨0, 5⟩, ⟨1, 5⟩] ∧
      g'.gameOver = true := by
  obtain ⟨g', h, hhead, htail, hover⟩ :=
    C4_game_over_transition at_left_wall input_step ⟨0, 5⟩ [⟨1, 5⟩, ⟨2, 5⟩] rfl rfl
      (by decide!) (fun he => absurd he (by decide))
  exact ⟨g', h, hhead, htail, hover.mpr (Or.inl (Or.inl (by decide)))⟩

/-- C5: in a state with `gameOver` true, an `Update` without SPACE returns and
leaves `gameOver` true and the snake, the direction, the score and the food cell
unchanged; an `Update` with SPACE returns as soon as `SpawnFood` does, and then the
score is 0, the snake is [(7,5),(6,5),(5,5)], the direction (1,0) and `gameOver`
false.  No `Update` without SPACE leaves the state. -/
theorem C5_game_over_state (g : Game) (inp : Input) (hgo : g.gameOver = true) :
    (inp.keySpace = false →
      ∃ g', Update g inp = some g' ∧ g'.gameOver = true ∧ g'.snake = g.snake ∧
        g'.dx = g.dx ∧ g'.dy = g.dy ∧ g'.score = g.score ∧
        g'.food.x = g.food.x ∧ g'.food.y = g.food.y) ∧
    (inp.keySpace = true →
      (∃ d ∈ inp.draws, ¬ Occupied [⟨7, 5⟩, ⟨6, 5⟩, ⟨5, 5⟩] d.x d.y) →
      ∃ g', Update g inp = some g' ∧ g'.score = 0 ∧
        g'.snake = [⟨7, 5⟩, ⟨6, 5⟩, ⟨5, 5⟩] ∧ g'.dx = 1 ∧ g'.dy = 0 ∧ g'.gameOver = false) ∧
    (inp.keySpace = true → ∀ g', Update g inp = some g' →
      g'.score = 0 ∧ g'.snake = [⟨7, 5⟩, ⟨6, 5⟩, ⟨5, 5⟩] ∧ g'.dx = 1 ∧ g'.dy = 0 ∧
        g'.gameOver = false) ∧
    (∀ g', Update g inp = some g' → g'.gameOver = false → inp.keySpace = true) := by
  obtain ⟨a, ha, h1, h2, h3, -, h5, h6, h7, h8, -⟩ := Update_animations g inp.deltaTime
  have hup := Update_of_gameOver g inp hgo
  rw [← ha] at hup
  have hreset : inp.keySpace = true → ∀ g', Update g inp = some g' →
      g'.score = 0 ∧ g'.snake = [⟨7, 5⟩, ⟨6, 5⟩, ⟨5, 5⟩] ∧ g'.dx = 1 ∧ g'.dy = 0 ∧
        g'.gameOver = false := by
    intro hsp g' h
    rw [hup, if_pos hsp] at h
    obtain ⟨d, -, -, rfl⟩ := Reset_some a g' inp.draws h
    exact ⟨rfl, rfl, rfl, rfl, rfl⟩
  refine ⟨?_, ?_, hreset, ?_⟩
  · intro hsp
    refine ⟨a, ?_, by rw [h8]; exact hgo, h1, h5, h6, h7, h2, h3⟩
    rw [hup, hsp]; rfl
  · intro hsp hd
    obtain ⟨g', hg'⟩ := Reset_returns a inp.draws hd
    have h : Update g inp = some g' := by rw [hup, if_pos hsp]; exact hg'
    exact ⟨g', h, hreset hsp g' h⟩
  · intro g' h hg'
    by_contra hsp
    simp only [Bool.not_eq_true] at hsp
    rw [hup, hsp] at h
    simp only [Bool.false_eq_true, if_false, Option.some.injEq] at h
    rw [← h, h8, hgo] at hg'
    exact Bool.noConfusion hg'

theorem C5_game_over_state_witness :
    (∃ g', Update over_left input_arrow = some g' ∧ g'.gameOver = true ∧
        g'.snake = [⟨-1, 5⟩, ⟨0, 5⟩, ⟨1, 5⟩] ∧ g'.dx = -1 ∧ g'.dy = 0 ∧ g'.score = 300 ∧
        g'.food.x = 20 ∧ g'.food.y = 20) ∧
    (∃ g', Update over_left input_space = some g' ∧ g'.score = 0 ∧
        g'.snake = [⟨7, 5⟩, ⟨6, 5⟩, ⟨5, 5⟩] ∧ g'.dx = 1 ∧ g'.dy = 0 ∧ g'.gameOver = false) :=
  ⟨(C5_game_over_state over_left input_arrow rfl).1 rfl,
   (C5_game_over_state over_left input_space rfl).2.1 rfl
     ⟨draw_20_20, by simp [input_space], by decide⟩⟩

/-- C6: with direction (1,0) and the keys UP and LEFT both reported in one
`Update`, the key tests leave the direction (-1,0), the reverse: the test of LEFT
reads the `dx` the test of UP has just set to 0. -/
theorem C6_two_keys_reverse :
    start_20_20.gameOver = false ∧ start_20_20.dx = 1 ∧ start_20_20.dy = 0 ∧
    (Update_keys start_20_20 input_up_left).dx = -1 ∧
    (Update_keys start_20_20 input_up_left).dy = 0 ∧
    (Update start_20_20 input_up_left).map (fun g => (g.dx, g.dy, g.snake, g.gameOver)) =
      some (-1, 0, [⟨7, 5⟩, ⟨6, 5⟩, ⟨5, 5⟩], false) := by
  refine ⟨rfl, rfl, rfl, by decide, by decide, by decide!⟩

/-- C7: from `Game()`, a grid step to the right, then UP and LEFT in two frames
without a grid step, then a grid step: the head moves from (8,5) onto the neck
(7,5), in the direction reverse to that of the previous grid step, and the game is
over.  The same happens with UP and LEFT in the frame of the grid step itself. -/
theorem C7_step_onto_neck :
    Game.new [draw_20_20] = some start_20_20 ∧
    (run start_20_20 [input_step, input_up, input_left]).map
        (fun g => (g.snake, g.dx, g.dy, g.gameOver)) =
      some ([⟨8, 5⟩, ⟨7, 5⟩, ⟨6, 5⟩], -1, 0, false) ∧
    (run start_20_20 [input_step, input_up, input_left, input_step]).map
        (fun g => (g.snake, g.gameOver)) =
      some ([⟨7, 5⟩, ⟨8, 5⟩, ⟨7, 5⟩], true) ∧
    (run start_20_20 [input_step, { input_step with keyUp := true, keyLeft := true }]).map
        (fun g => (g.snake, g.gameOver)) =
      some ([⟨7, 5⟩, ⟨8, 5⟩, ⟨7, 5⟩], true) := by
  refine ⟨rfl, by decide!, by decide!, by decide!⟩

/-- C8: the `Update` that takes a reachable running state to `gameOver` creates
exactly 50 particles, each at the pixel position (20 x + 10, 20 y + 10) of the
head cell (x, y), with the animation started and its timer at 0, and a colliding
grid step does return; every `Update` without SPACE of a reachable game-over state
returns, keeps `gameOver`, the 50 particles and the death position, and advances
the animation timer by the frame time; and `CheckCollision` called on a game-over
state changes nothing. -/
theorem C8_death_animation_once (g : Game) (inp : Input) (hr : Reachable g) :
    (g.gameOver = false → ∀ g', Update g inp = some g' → g'.gameOver = true →
      ∃ head : SnakeSegment, g'.snake.head? = some head ∧
        g'.deathAnim.particles.length = 50 ∧
        (∀ p ∈ g'.deathAnim.particles,
          p.position = ⟨((20 * head.x + 10 : Int) : ℚ), ((20 * head.y + 10 : Int) : ℚ)⟩) ∧
        g'.deathAnim.deathPosition =
          ⟨((20 * head.x + 10 : Int) : ℚ), ((20 * head.y + 10 : Int) : ℚ)⟩ ∧
        g'.deathAnim.started = true ∧ g'.deathAnim.timer = 0 ∧
        g'.deathAnim.finished = false) ∧
    (g.gameOver = false → Fires g inp →
      ∀ (front : SnakeSegment) (rest : List SnakeSegment), g.snake = front :: rest →
      (¬ InGrid (Update_newHead g inp front).x (Update_newHead g inp front).y ∨
        Update_newHead g inp front ∈ g.snake.dropLast) →
      ∃ g', Update g inp = some g' ∧ g'.gameOver = true) ∧
    (g.gameOver = true → inp.keySpace = false →
      ∃ g', Update g inp = some g' ∧ g'.gameOver = true ∧
        g'.deathAnim.particles.length = 50 ∧ g'.deathAnim.started = true ∧
        g'.deathAnim.deathPosition = g.deathAnim.deathPosition ∧
        g'.deathAnim.timer = g.deathAnim.timer + inp.deltaTime) ∧
    (g.gameOver = true → ∀ rnd r, CheckCollision g rnd = some r → r.2 = g) := by
  obtain ⟨hne, -, hin, hfree, -, -, hover⟩ := Reachable_Inv g hr
  obtain ⟨front, rest, hs⟩ := List.exists_cons_of_ne_nil hne
  refine ⟨?_, ?_, ?_, ?_⟩
  · intro hgo g' h hg'
    have hfire : Fires g inp := by
      by_contra hnf
      rw [Update_not_fires g inp hgo hnf] at h
      cases h
      obtain ⟨-, -, -, -, -, t6, -⟩ := Update_timed_frame g inp
      rw [t6, hgo] at hg'
      exact Bool.noConfusion hg'
    obtain ⟨body, hsnake, -, -, -, -, -, -, hanim⟩ :=
      Update_grid_step g g' inp front rest hs hgo hfire h
    refine ⟨Update_newHead g inp front, by rw [hsnake]; rfl, ?_, ?_, ?_, ?_, ?_, ?_⟩
    · rw [hanim hg']; exact InitializeDeathAnimation_length _ _ _ _
    · rw [hanim hg']; exact InitializeDeathAnimation_position _ _ _ _
    · rw [hanim hg']
      simp only [InitializeDeathAnimation, GRID_SIZE, Vector2.mk.injEq]
      constructor <;> norm_num <;> ring
    · rw [hanim hg']; rfl
    · rw [hanim hg']; rfl
    · rw [hanim hg']; rfl
  · intro hgo hfire front' rest' hs' hhit
    have hne : ¬ Eats g inp front' := by
      intro he
      obtain ⟨hgrid, hnot⟩ := Eats_no_hit g inp front' hin hfree he
      rcases hhit with hout | hmem
      · exact hout hgrid
      · exact hnot (List.mem_of_mem_dropLast hmem)
    obtain ⟨g', h⟩ := Update_grid_step_returns g inp front' rest' hs' hgo hfire
      (fun he => absurd he hne)
    obtain ⟨body, -, -, hnoeat, -, -, -, hov, -⟩ :=
      Update_grid_step g g' inp front' rest' hs' hgo hfire h
    refine ⟨g', h, hov.mpr ?_⟩
    rw [(hnoeat hne).1]
    exact hhit
  · intro hgo hsp
    obtain ⟨hst, hlen, -⟩ := hover hgo
    obtain ⟨a, ha, -, -, -, -, -, -, -, h8, -, -, -, h12, h13, h14, h15⟩ :=
      Update_animations g inp.deltaTime
    refine ⟨a, ?_, by rw [h8]; exact hgo, by rw [h14]; exact hlen, by rw [h12]; exact hst,
      h13, ?_⟩
    · rw [Update_of_gameOver g inp hgo, hsp, ← ha]; rfl
    · rw [h15, hst]; rfl
  · intro hgo rnd r hr
    rw [CheckCollision_cons g rnd front rest hs] at hr
    simp only [hgo, Bool.true_eq_false, if_false] at hr
    split_ifs at hr <;> cases hr <;> rfl

theorem C8_death_animation_once_witness :
    Reachable near_top ∧
    ∃ g', Update near_top input_step = some g' ∧ g'.gameOver = true ∧
      (∃ head : SnakeSegment, g'.snake.head? = some head ∧
        g'.deathAnim.particles.length = 50 ∧
        (∀ p ∈ g'.deathAnim.particles,
          p.position = ⟨((20 * head.x + 10 : Int) : ℚ), ((20 * head.y + 10 : Int) : ℚ)⟩) ∧
        g'.deathAnim.deathPosition =
          ⟨((20 * head.x + 10 : Int) : ℚ), ((20 * head.y + 10 : Int) : ℚ)⟩ ∧
        g'.deathAnim.started = true ∧ g'.deathAnim.timer = 0 ∧
        g'.deathAnim.finished = false) ∧
      ∃ g2, Update g' input_arrow = some g2 ∧ g2.gameOver = true ∧
        g2.deathAnim.particles.length = 50 ∧ g2.deathAnim.started = true ∧
        g2.deathAnim.deathPosition = g'.deathAnim.deathPosition ∧
        g2.deathAnim.timer = g'.deathAnim.timer + input_arrow.deltaTime := by
  have hr : Reachable near_top :=
    Reachable_run start_20_20 near_top
      [input_step_up, input_step, input_step, input_step, input_step]
      (Reachable.init [draw_20_20] start_20_20 rfl) (by decide!)
  obtain ⟨g', h, hg'⟩ :=
    (C8_death_animation_once near_top input_step hr).2.1 rfl (by decide!) ⟨7, 0⟩
      [⟨7, 1⟩, ⟨7, 2⟩] rfl (Or.inl (by decide))
  exact ⟨hr, g', h, hg', (C8_death_animation_once near_top input_step hr).1 rfl g' h hg',
    (C8_death_animation_once g' input_arrow (Reachable.update near_top input_step g' hr h)).2.2.1
      hg' rfl⟩

/-- C9: from `Game()` with the food at (7,0): the snake turns up, eats the food
at its fifth grid step and leaves the grid at the sixth, a quarter of a second
later; SPACE is pressed an eighth of a second after that.  After the `Reset` the
collect animation is still running and its timer is 3/8: `Reset` assigns neither
`isCollectAnimation` nor `collectAnimTimer`. -/
theorem C9_collect_timer_survives_reset :
    Game.new [draw_7_0] = some start_7_0 ∧
    (run start_7_0 [input_step_up, input_step, input_step, input_step, input_step,
        input_quarter]).map (fun g => (g.gameOver, g.isCollectAnimation, g.collectAnimTimer)) =
      some (true, true, 1 / 4) ∧
    (run start_7_0 [input_step_up, input_step, input_step, input_step, input_step,
        input_quarter, input_space_eighth]).map
        (fun g => (g.gameOver, g.snake, g.score, g.isCollectAnimation, g.collectAnimTimer)) =
      some (false, [⟨7, 5⟩, ⟨6, 5⟩, ⟨5, 5⟩], 0, true, 3 / 8) ∧
    (run start_7_0 [input_step_up, input_step, input_step, input_step, input_step,
        input_quarter, input_space_eighth]).map
        (fun g => (g.timeSinceLastMove, g.food.pulseTimer, g.deathAnim.timer,
          g.gameOverTextScale, g.menuAlpha, g.screenShake)) =
      some (0, 0, 0, 0, 0, 0) := by
  refine ⟨rfl, by decide!, by decide!, by decide!⟩

/-- C10: in every reachable state the food cell is inside the grid and on no
segment of the snake; so a grid step whose new head lands on the food cell leaves
`gameOver` false, and it returns as soon as `SpawnFood` does. -/
theorem C10_eating_never_ends_game (g : Game) (hr : Reachable g) :
    InGrid g.food.x g.food.y ∧ ¬ Occupied g.snake g.food.x g.food.y ∧
    ∀ (inp : Input) (front : SnakeSegment) (rest : List SnakeSegment),
      g.snake = front :: rest → g.gameOver = false → Fires g inp → Eats g inp front →
      (∀ g', Update g inp = some g' → g'.gameOver = false) ∧
      ((∃ d ∈ inp.draws, ¬ Occupied (Update_newHead g inp front :: g.snake) d.x d.y) →
        ∃ g', Update g inp = some g' ∧ g'.gameOver = false) := by
  obtain ⟨-, -, hin, hfree, -⟩ := Reachable_Inv g hr
  refine ⟨hin, hfree, ?_⟩
  intro inp front rest hs hgo hfire he
  have key : ∀ g', Update g inp = some g' → g'.gameOver = false := by
    intro g' h
    obtain ⟨body, -, heat, -, -, -, -, hover, -⟩ :=
      Update_grid_step g g' inp front rest hs hgo hfire h
    obtain ⟨hgrid, hnot⟩ := Eats_no_hit g inp front hin hfree he
    rw [(heat he).1] at hover
    cases hg : g'.gameOver
    · rfl
    · rcases hover.mp hg with hout | hmem
      · exact absurd hgrid hout
      · exact absurd hmem hnot
  refine ⟨key, ?_⟩
  intro hd
  obtain ⟨g', h⟩ := Update_grid_step_returns g inp front rest hs hgo hfire (fun _ => hd)
  exact ⟨g', h, key g' h⟩

theorem C10_eating_never_ends_game_witness :
    Reachable start_8_5 ∧ InGrid 8 5 ∧ ¬ Occupied [⟨7, 5⟩, ⟨6, 5⟩, ⟨5, 5⟩] 8 5 ∧
    ∃ g', Update start_8_5 input_step = some g' ∧ g'.gameOver = false :=
  ⟨Reachable.init [draw_8_5] start_8_5 rfl,
   (C10_eating_never_ends_game start_8_5 (Reachable.init [draw_8_5] start_8_5 rfl)).1,
   (C10_eating_never_ends_game start_8_5 (Reachable.init [draw_8_5] start_8_5 rfl)).2.1,
   ((C10_eating_never_ends_game start_8_5 (Reachable.init [draw_8_5] start_8_5 rfl)).2.2
      input_step ⟨7, 5⟩ [⟨6, 5⟩, ⟨5, 5⟩] rfl rfl (by decide!) (by decide)).2
      ⟨draw_20_20, by simp [input_step], by decide⟩⟩

end SnakeX
